import Mathlib

/-
Verification of the Domus core (pranamya123/domus, backend/app).

Shallow embedding of:
- the per-household observation buffer (agents/domus_fridge.py, _store_observation);
- the temporal frame comparator (services/temporal_comparison_service.py);
- the debounce/throttle manager (core/debounce.py);
- the event-bus dispatch dedup loop (core/event_bus.py, _dispatch_event);
- the confidence decay model (services/confidence_decay_service.py);
- the notification router (services/notification_service.py).

Modelling conventions: Python floats are modelled as rationals where the code
only compares and adds them, and as real numbers where the exponential decay
formula is involved; datetimes are modelled as rational "seconds" (only
differences of timestamps are ever used); Python dict-shaped items are
modelled as structures whose fields are the keys the code reads (the
`.get(key, default)` fallbacks for absent keys are not exercised by the
claims, so fields are taken as present); a raised exception is modelled as
`Except.error`.
-/

namespace Domus

/-! ### Data model of the comparator and buffer -/

/-- One observed item inside a frame, as read by the comparator:
the code accesses `name`, `location`, `category`, `confidence`. -/
structure ObservedItem where
  name : String
  location : String
  category : String
  confidence : ℚ
  deriving DecidableEq, Repr

/-- One entry of the rolling observation buffer, as built by
`_store_observation`: `{"timestamp": ..., "items": ..., "item_count": ...}`.
The ISO timestamp is modelled as rational seconds. -/
structure Observation where
  timestamp : ℚ
  items : List ObservedItem
  item_count : ℕ
  deriving DecidableEq, Repr

/-- Python `str.lower()` (ASCII case folding is all the code relies on). -/
def strLower (s : String) : String := String.mk (s.data.map Char.toLower)

/-! ### Observation Buffer (domus_fridge.py lines 341-359) -/

/-- DomusFridge.__init__: `self._max_observation_frames: int = 10`. -/
def max_observation_frames : ℕ := 10

/-- DomusFridge._store_observation: append the frame, then
`if len(history) > max: history = history[-max:]` (keep the newest `max`).
The Python slice `[-10:]` keeps the last 10 elements. -/
def store_observation (history : List Observation) (obs : Observation) :
    List Observation :=
  let h := history ++ [obs]
  if max_observation_frames < h.length then
    h.drop (h.length - max_observation_frames)
  else h

/-- Folding a whole sequence of frames into the buffer, oldest first. -/
def append_frames (history : List Observation) (frames : List Observation) :
    List Observation :=
  frames.foldl store_observation history

/-- Last `k` elements of a list (`l[-k:]` for `k ≥ 1`). -/
def lastN (l : List α) (k : ℕ) : List α := l.drop (l.length - k)

/-! ### Temporal comparator (temporal_comparison_service.py) -/

/-- TemporalComparisonService.PRESENCE_THRESHOLD = 0.5. -/
def PRESENCE_THRESHOLD : ℚ := 1/2

/-- ItemAddedEvent dataclass (wall-clock `detected_at` omitted: no claim
reads it). -/
structure ItemAddedEvent where
  item_name : String
  location : String
  confidence : ℚ
  category : String
  deriving DecidableEq, Repr

/-- ItemRemovedEvent dataclass (wall-clock `removed_at` omitted). -/
structure ItemRemovedEvent where
  item_name : String
  last_location : String
  last_confidence : ℚ
  was_present_for_frames : ℕ
  deriving DecidableEq, Repr

/-- ItemMovedEvent dataclass (wall-clock `detected_at` omitted). -/
structure ItemMovedEvent where
  item_name : String
  from_location : String
  to_location : String
  deriving DecidableEq, Repr

/-- ConsumptionEvent dataclass (wall-clock `last_seen_at` omitted). -/
structure ConsumptionEvent where
  item_name : String
  category : String
  consumption_confidence : ℚ
  reasoning : String
  deriving DecidableEq, Repr

/-- TemporalChanges aggregate (stagnant_items and the analysis timestamp are
not touched by compare_frames' change detection). -/
structure TemporalChanges where
  items_added : List ItemAddedEvent := []
  items_removed : List ItemRemovedEvent := []
  items_moved : List ItemMovedEvent := []
  consumption_events : List ConsumptionEvent := []
  deriving DecidableEq, Repr

/-- TemporalComparisonService._count_presence_in_history: count the frames in
which some item matches the (lowercased) name; the inner `break` makes this a
per-frame predicate count. -/
def count_presence_in_history (item_name : String)
    (frames : List Observation) : ℕ :=
  frames.countP (fun fr =>
    fr.items.any (fun it => strLower it.name == strLower item_name))

/-- TemporalComparisonService.detect_item_additions: items of the current
frame with confidence ≥ 0.5 and a nonempty name not present (lowercased) in
the previous frame. -/
def detect_item_additions (current previous : List ObservedItem) :
    List ItemAddedEvent :=
  let previous_names := previous.map (fun it => strLower it.name)
  current.filterMap (fun it =>
    if it.confidence < PRESENCE_THRESHOLD then none
    else
      let name := strLower it.name
      if name ≠ "" ∧ name ∉ previous_names then
        some { item_name := it.name, location := it.location,
               confidence := it.confidence, category := it.category }
      else none)

/-- TemporalComparisonService.detect_item_removals: items of the previous
frame with confidence ≥ 0.5 whose name is absent from the current frame,
reported only when they appeared in ≥ 1 frame of the history. -/
def detect_item_removals (current previous : List ObservedItem)
    (all_frames : List Observation) : List ItemRemovedEvent :=
  let current_names := current.map (fun it => strLower it.name)
  previous.filterMap (fun it =>
    if it.confidence < PRESENCE_THRESHOLD then none
    else
      let name := strLower it.name
      if name ≠ "" ∧ name ∉ current_names then
        let frames_present := count_presence_in_history name all_frames
        if 1 ≤ frames_present then
          some { item_name := it.name, last_location := it.location,
                 last_confidence := it.confidence,
                 was_present_for_frames := frames_present }
        else none
      else none)

/-- Last item of a frame carrying the given lowercased name (Python's dict
comprehension keyed on the lowered name keeps the last duplicate). -/
def lastByName (items : List ObservedItem) (name : String) :
    Option ObservedItem :=
  (items.filter (fun it => strLower it.name == name)).getLast?

/-- TemporalComparisonService.detect_item_movements: items present in both
frames whose (lowercased) locations differ, skipped when either side is
"unknown". Keys iterate in first-occurrence order. -/
def detect_item_movements (current previous : List ObservedItem) :
    List ItemMovedEvent :=
  ((current.map (fun it => strLower it.name)).eraseDups).filterMap (fun name =>
    match lastByName current name, lastByName previous name with
    | some curr, some prev =>
      let curr_location := strLower curr.location
      let prev_location := strLower prev.location
      if curr_location ≠ prev_location ∧ curr_location ≠ "unknown" ∧
          prev_location ≠ "unknown" then
        some { item_name := curr.name, from_location := prev.location,
               to_location := curr.location }
      else none
    | _, _ => none)

/-- Consumable-category set of detect_consumption. -/
def consumable_categories : List String :=
  ["dairy", "produce", "meat", "seafood", "beverages", "leftovers"]

/-- Category lookup of detect_consumption: the inner loop breaks at the first
matching item of a frame, the outer loop keeps scanning, so the last frame
containing the item decides; "unknown" if never seen. The name argument is
already lowercased by the caller. -/
def categoryFromHistory (name : String) (frames : List Observation) : String :=
  frames.foldl (fun cat fr =>
    match fr.items.find? (fun it => strLower it.name == name) with
    | some it => it.category
    | none => cat) "unknown"

/-- TemporalComparisonService.detect_consumption: emitted only when the
removed item appeared in ≥ 2 frames; confidence
min(0.95, 0.5 + 0.1·count), +0.1 when the history category is consumable,
clamped to 1.0. -/
def detect_consumption (removed_item : ItemRemovedEvent)
    (observation_history : List Observation) : Option ConsumptionEvent :=
  let item_name_lower := strLower removed_item.item_name
  let appearance_count :=
    count_presence_in_history item_name_lower observation_history
  if appearance_count < 2 then none
  else
    let consumption_confidence :=
      min (95/100 : ℚ) (1/2 + appearance_count * (1/10))
    let category := categoryFromHistory item_name_lower observation_history
    let consumption_confidence :=
      if strLower category ∈ consumable_categories then
        consumption_confidence + 1/10
      else consumption_confidence
    some { item_name := removed_item.item_name, category := category,
           consumption_confidence := min 1 consumption_confidence,
           reasoning := "Item observed in " ++ toString appearance_count ++
             " frames before removal" }

/-- Turn a current item into the ItemAddedEvent of the first-frame branch of
compare_frames. -/
def first_frame_added (it : ObservedItem) : ItemAddedEvent :=
  { item_name := it.name, location := it.location,
    confidence := it.confidence, category := it.category }

/-- TemporalComparisonService.compare_frames. An empty history short-circuits:
every current item becomes an addition. Otherwise the last frame's items are
compared, and consumption is inferred per removal. -/
def compare_frames (current_items : List ObservedItem)
    (previous_frames : List Observation) : TemporalChanges :=
  if previous_frames.isEmpty then
    { items_added := current_items.map first_frame_added }
  else
    let previous_items := ((previous_frames.getLast?).map Observation.items).getD []
    let additions := detect_item_additions current_items previous_items
    let removals := detect_item_removals current_items previous_items previous_frames
    let movements := detect_item_movements current_items previous_items
    let consumption := removals.filterMap
      (fun r => detect_consumption r previous_frames)
    { items_added := additions, items_removed := removals,
      items_moved := movements, consumption_events := consumption }

/-! ### Debounce / throttle manager (core/debounce.py) -/

/-- The DebounceManager._cache dict, key → last accepted time (seconds). -/
abbrev DebounceCache := List (String × ℚ)

/-- Dict lookup on the cache. -/
def lookupKey (cache : DebounceCache) (key : String) : Option ℚ :=
  match cache.find? (fun p => p.1 == key) with
  | some p => some p.2
  | none => none

/-- Dict assignment `cache[key] = v` (replaces any previous binding). -/
def setKey (cache : DebounceCache) (key : String) (v : ℚ) : DebounceCache :=
  (key, v) :: cache.eraseP (fun p => p.1 == key)

/-- DebounceManager.should_accept: accept and record `now` when the key is
unseen or the elapsed time since the last acceptance reaches the debounce
interval; otherwise reject and leave the cache untouched. Returns the flag
and the updated cache. -/
def should_accept (cache : DebounceCache) (key : String)
    (debounce_seconds : ℚ) (now : ℚ) : Bool × DebounceCache :=
  match lookupKey cache key with
  | none => (true, setKey cache key now)
  | some last_accepted =>
    if debounce_seconds ≤ now - last_accepted then (true, setKey cache key now)
    else (false, cache)

/-- config.Settings.iot_image_debounce_seconds. -/
def iot_image_debounce_seconds : ℚ := 900

/-- config.Settings.expiry_notification_throttle_seconds. -/
def expiry_notification_throttle_seconds : ℚ := 86400

/-! ### Event bus dispatch dedup (core/event_bus.py lines 158-172) -/

/-- A bus event as seen by the dispatch loop (only event_id and event_type
matter there; payload, timestamp, source are carried opaquely). -/
structure BusEvent where
  event_id : String
  event_type : String
  deriving DecidableEq, Repr

/-- EventBus.__init__: `self._max_processed_cache = 10000`. -/
def max_processed_cache : ℕ := 10000

/-- EventBus._dispatch_event on the processed-id cache: a duplicate id is a
no-op; otherwise the id is recorded, the cache is trimmed to the newest 5000
ids once it exceeds 10000 (`set(list(processed)[-5000:])`, modelled with the
cache as an insertion-ordered list), and one round of handler invocations
runs (every subscriber of the event's type plus every wildcard subscriber,
each retried once on failure). The returned flag says whether that round
ran. -/
def dispatch_event (processed : List String) (e : BusEvent) :
    List String × Bool :=
  if e.event_id ∈ processed then (processed, false)
  else
    let p := processed ++ [e.event_id]
    let p := if max_processed_cache < p.length then p.drop (p.length - 5000)
      else p
    (p, true)

/-- Cache state after dispatching a whole queue of events in order. -/
def run_dispatch (processed : List String) (es : List BusEvent) :
    List String :=
  es.foldl (fun p e => (dispatch_event p e).1) processed

/-- Number of handler-invocation rounds that events with the given id receive
while the queue is drained. -/
def dispatch_rounds (processed : List String) (es : List BusEvent)
    (id : String) : ℕ :=
  match es with
  | [] => 0
  | e :: rest =>
    let r := dispatch_event processed e
    (if r.2 && (e.event_id == id) then 1 else 0) + dispatch_rounds r.1 rest id

/-- Helper to build a bus event with a fixed type. -/
def mkEv (id : String) : BusEvent :=
  { event_id := id, event_type := "inventory.updated" }

/-- Distinct event ids for the dedup-cache overflow scenario. -/
def eid (n : ℕ) : String := String.mk (List.replicate n 'a')

/-- A queue of 10001 events with pairwise-distinct ids followed by a
republish of the very first id: enough to overflow the dedup cache once. -/
def floodEvents : List BusEvent :=
  (List.range 10001).map (fun n => mkEv (eid n)) ++ [mkEv (eid 0)]

/-! ### Confidence decay model (confidence_decay_service.py) -/

/-- ConfidenceDecayService.DECAY_RATES (per hour, rational). -/
def DECAY_RATES (category : String) : ℚ :=
  if category = "dairy" then 5/100
  else if category = "produce" then 4/100
  else if category = "meat" then 8/100
  else if category = "seafood" then 10/100
  else if category = "condiments" then 1/100
  else if category = "beverages" then 2/100
  else if category = "frozen" then 1/100
  else if category = "leftovers" then 6/100
  else if category = "other" then 2/100
  else 2/100

/-- ConfidenceDecayService.MINIMUM_CONFIDENCE. -/
noncomputable def MINIMUM_CONFIDENCE : ℝ := 1/10

/-- ConfidenceDecayService.STALE_THRESHOLD. -/
noncomputable def STALE_THRESHOLD : ℝ := 1/2

/-- ConfidenceDecayService.get_decay_factor with the decay rate already
resolved (category table or custom override): 1 for non-positive elapsed
time, exp(−rate·hours) otherwise. -/
noncomputable def get_decay_factor (hours_unseen : ℝ) (decay_rate : ℝ) : ℝ :=
  if hours_unseen ≤ 0 then 1 else Real.exp (-(decay_rate * hours_unseen))

/-- ConfidenceDecayService.calculate_effective_confidence, with
`hours_since_seen = (current_time − last_seen)/3600` already computed (the
timestamp-parsing fallbacks return the base confidence unchanged and are out
of scope of the claims): the base confidence is returned as-is for
non-positive elapsed time, otherwise the exponentially decayed value floored
at MINIMUM_CONFIDENCE. -/
noncomputable def calculate_effective_confidence (base_confidence : ℝ)
    (decay_rate : ℝ) (hours_since_seen : ℝ) : ℝ :=
  if hours_since_seen ≤ 0 then base_confidence
  else max MINIMUM_CONFIDENCE
    (base_confidence * get_decay_factor hours_since_seen decay_rate)

/-- ConfidenceDecayService.estimate_time_to_stale: 0.0 when the base
confidence is already at or below the threshold, None for a non-positive
rate or a ratio outside (0,1), otherwise max(0, −ln(threshold/base)/rate).
(The Python ZeroDivisionError guard coincides with Lean's x/0 = 0: a zero
base is caught by the first branch for any threshold ≥ 0, and by the
ratio ≤ 0 test otherwise.) -/
noncomputable def estimate_time_to_stale (base_confidence : ℝ)
    (decay_rate : ℝ) (threshold : ℝ) : Option ℝ :=
  if base_confidence ≤ threshold then some 0
  else if decay_rate ≤ 0 then none
  else
    let r := threshold / base_confidence
    if r ≤ 0 ∨ 1 ≤ r then none
    else some (max 0 (-Real.log r / decay_rate))

/-! ### Notification router (notification_service.py) -/

/-- Outcome of one delivery attempt by a concrete channel implementation:
`Except.error` models a raised exception, `Except.ok b` a normal return. The
`ℕ` argument is the attempt index (0 = first call, 1 = retry). -/
abbrev ChannelBehavior := String → ℕ → Except Unit Bool

/-- NotificationService._deliver_to_channel: the first attempt's exception is
retried once, but only for the in-app channel; any other channel's exception
is absorbed and reported as failure. Returns the success flag and how many
underlying delivery calls were made. -/
def deliver_to_channel (beh : ChannelBehavior) (channel : String) :
    Bool × ℕ :=
  match beh channel 0 with
  | Except.ok success => (success, 1)
  | Except.error _ =>
    if channel == "in_app" then
      match beh channel 1 with
      | Except.ok success => (success, 2)
      | Except.error _ => (false, 2)
    else (false, 1)

/-- NotificationService._determine_channels: in-app always; push for
high/urgent severity or hardware_disconnected type; alexa for urgent. The
final `list(set(...))` dedup is modelled keeping first occurrences. -/
def determine_channels (severity : String) (notification_type : String) :
    List String :=
  let channels := ["in_app"]
  let channels := if severity = "high" ∨ severity = "urgent" then
      channels ++ ["push"] else channels
  let channels := if notification_type = "hardware_disconnected" then
      channels ++ ["push"] else channels
  let channels := if severity = "urgent" then channels ++ ["alexa"]
    else channels
  channels.eraseDups

/-- The delivery bookkeeping of a created notification record. -/
structure NotificationRecord where
  notification_type : String
  severity : String
  delivery_status : String
  channels_attempted : List String
  channels_delivered : List String
  deriving DecidableEq, Repr

/-- Result of create_notification: `status` is "throttled" for the early
throttle return and "created" otherwise (the code returns the record dict
itself there); `record = none` models that no Notification entry was
appended to the delivered list; `published_events` lists the bus event types
published. -/
structure CreateResult where
  status : String
  record : Option NotificationRecord
  published_events : List String
  cache : DebounceCache
  deriving DecidableEq, Repr

/-- Lines 79-133 of create_notification, after the throttle gate: build the
record, attempt every selected channel, fall back to a forced in-app
delivery when none succeeded, mark the record delivered, publish
notification.created. -/
def finish_create (beh : ChannelBehavior) (cache : DebounceCache)
    (notification_type severity : String) : CreateResult :=
  let channels := determine_channels severity notification_type
  let results := channels.map (fun c => (c, (deliver_to_channel beh c).1))
  let channels_attempted := results.map (fun p => p.1)
  let channels_delivered := (results.filter (fun p => p.2 == true)).map
    (fun p => p.1)
  let record :=
    if channels_delivered.isEmpty then
      { notification_type := notification_type, severity := severity,
        delivery_status := "delivered",
        channels_attempted := channels_attempted,
        channels_delivered := channels_delivered ++ ["in_app"] }
    else
      { notification_type := notification_type, severity := severity,
        delivery_status := "delivered",
        channels_attempted := channels_attempted,
        channels_delivered := channels_delivered }
  { status := "created", record := some record,
    published_events := ["notification.created"], cache := cache }

/-- NotificationService.create_notification: for a perishable_expiry
notification carrying a source item id, the expiry throttle
(should_send_expiry_notification, key
"expiry_notification:{household}:{item}", 86400 s) is consulted first; a
rejected intent returns the non-error "throttled" result and does nothing
else. -/
def create_notification (beh : ChannelBehavior) (cache : DebounceCache)
    (now : ℚ) (household_id : String) (notification_type severity : String)
    (source_id : Option String) : CreateResult :=
  if notification_type = "perishable_expiry" then
    match source_id with
    | some sid =>
      let key := "expiry_notification:" ++ household_id ++ ":" ++ sid
      let gate := should_accept cache key expiry_notification_throttle_seconds now
      if gate.1 then finish_create beh gate.2 notification_type severity
      else { status := "throttled", record := none, published_events := [],
             cache := gate.2 }
    | none => finish_create beh cache notification_type severity
  else finish_create beh cache notification_type severity

/-! ### Concrete fixtures used by witnesses and counterexamples -/

/-- An empty frame. -/
def obs0 : Observation := { timestamp := 0, items := [], item_count := 0 }

/-- An item below the presence threshold. -/
def lowConfidenceItem : ObservedItem :=
  { name := "mystery", location := "top shelf", category := "other",
    confidence := 3/10 }

/-- A dairy item as observed in a frame. -/
def milkItem : ObservedItem :=
  { name := "Milk", location := "door", category := "dairy",
    confidence := 9/10 }

/-- First prior frame containing milk. -/
def milkFrame1 : Observation :=
  { timestamp := 0, items := [milkItem], item_count := 1 }

/-- Second prior frame containing milk. -/
def milkFrame2 : Observation :=
  { timestamp := 900, items := [milkItem], item_count := 1 }

/-- The removal event for milk after two prior appearances. -/
def milkRemoved : ItemRemovedEvent :=
  { item_name := "Milk", last_location := "door", last_confidence := 9/10,
    was_present_for_frames := 2 }

/-- Channel behavior where every delivery call returns success. -/
def behAllOk : ChannelBehavior := fun _ _ => Except.ok true

/-- Channel behavior where the push channel raises on the first attempt and
would succeed on a retry; every other call succeeds. -/
def behPushFlaky : ChannelBehavior := fun channel attempt =>
  if channel == "push" && attempt == 0 then Except.error ()
  else Except.ok true

/-- Channel behavior where every first attempt raises and every retry
succeeds. -/
def behFirstFails : ChannelBehavior := fun _ attempt =>
  if attempt == 0 then Except.error () else Except.ok true

/-- The throttle key of household h1, item item1. -/
def expiryKey0 : String := "expiry_notification:h1:item1"

/-! ## Theorems -/

/-! ### Shared lemmas about the buffer trim -/

theorem lastN_length_le (l : List α) (k : ℕ) : (lastN l k).length ≤ k := by
  simp only [lastN, List.length_drop]
  omega

theorem lastN_of_length_le (l : List α) (k : ℕ) (h : l.length ≤ k) :
    lastN l k = l := by
  simp only [lastN]
  rw [Nat.sub_eq_zero_of_le h, List.drop_zero]

theorem lastN_append_left (x z : List α) (k : ℕ) (h : k ≤ z.length) :
    lastN (x ++ z) k = lastN z k := by
  simp only [lastN, List.length_append]
  have hz : x.length + z.length - k = x.length + (z.length - k) := by omega
  rw [hz, List.drop_append]

theorem lastN_lastN_append (l r : List α) (k : ℕ) :
    lastN (lastN l k ++ r) k = lastN (l ++ r) k := by
  by_cases h : l.length ≤ k
  · rw [lastN_of_length_le l k h]
  · push_neg at h
    have hsplit : l = l.take (l.length - k) ++ lastN l k :=
      (List.take_append_drop (l.length - k) l).symm
    have hlen : (lastN l k).length = k := by
      simp only [lastN, List.length_drop]
      omega
    calc lastN (lastN l k ++ r) k
        = lastN (l.take (l.length - k) ++ (lastN l k ++ r)) k := by
          rw [lastN_append_left (l.take (l.length - k)) (lastN l k ++ r) k
            (by rw [List.length_append, hlen]; omega)]
      _ = lastN (l ++ r) k := by
          rw [← List.append_assoc, ← hsplit]

theorem store_observation_eq_lastN (history : List Observation)
    (obs : Observation) :
    store_observation history obs =
      lastN (history ++ [obs]) max_observation_frames := by
  simp only [store_observation, lastN]
  split
  · rfl
  · rename_i h
    rw [Nat.sub_eq_zero_of_le (by omega), List.drop_zero]

theorem append_frames_eq_lastN (frames history : List Observation)
    (hlen : history.length ≤ max_observation_frames) :
    append_frames history frames =
      lastN (history ++ frames) max_observation_frames := by
  induction frames generalizing history with
  | nil =>
    simp only [append_frames, List.foldl_nil, List.append_nil]
    exact (lastN_of_length_le history max_observation_frames hlen).symm
  | cons f fs ih =>
    have hstep : append_frames history (f :: fs) =
        append_frames (store_observation history f) fs := rfl
    rw [hstep, ih (store_observation history f)
        (by rw [store_observation_eq_lastN]; exact lastN_length_le ..),
      store_observation_eq_lastN, lastN_lastN_append,
      List.append_assoc, List.singleton_append]

/-- C1: for every sequence of frame appends to the observation buffer
(capacity 10), the buffer length never exceeds the capacity, and after more
than `capacity` appends exactly the most recent `capacity` frames remain, in
oldest-first order (the buffer is the order-preserving suffix of the
appended sequence). -/
theorem observation_buffer_capacity (frames : List Observation) :
    (append_frames [] frames).length ≤ max_observation_frames ∧
    (max_observation_frames < frames.length →
      append_frames [] frames =
        frames.drop (frames.length - max_observation_frames) ∧
      (append_frames [] frames).length = max_observation_frames) := by
  have h : append_frames [] frames = lastN frames max_observation_frames := by
    have := append_frames_eq_lastN frames [] (by simp)
    simpa using this
  refine ⟨by rw [h]; exact lastN_length_le .., fun hlt => ⟨by rw [h]; rfl, ?_⟩⟩
  rw [h]
  simp only [lastN, List.length_drop]
  omega

/-- Witness for C1 at eleven concrete appends: the buffer keeps exactly the
last ten frames. -/
theorem observation_buffer_capacity_witness :
    max_observation_frames < (List.replicate 11 obs0).length ∧
    append_frames [] (List.replicate 11 obs0) =
      (List.replicate 11 obs0).drop 1 := by
  have hlt : max_observation_frames < (List.replicate 11 obs0).length := by
    simp [max_observation_frames]
  have h := (observation_buffer_capacity (List.replicate 11 obs0)).2 hlt
  refine ⟨hlt, ?_⟩
  have h1 : (List.replicate 11 obs0).length - max_observation_frames = 1 := by
    simp [max_observation_frames]
  rw [h.1, h1]

/-! ### C2: first frame short-circuit of compare_frames -/

/-- C2 counterexample: on the first-ever frame the code reports an addition
even for an item whose confidence is below the 0.5 presence threshold, so
the claim "one ItemAdded per item whose confidence is ≥ 0.5" is false: a
single item of confidence 0.3 still yields one ItemAdded event. -/
theorem compare_frames_first_frame_ignores_threshold :
    (compare_frames [lowConfidenceItem] []).items_added =
      [{ item_name := "mystery", location := "top shelf",
         confidence := 3/10, category := "other" }] ∧
    lowConfidenceItem.confidence < PRESENCE_THRESHOLD := by
  exact ⟨rfl, by norm_num [lowConfidenceItem, PRESENCE_THRESHOLD]⟩

/-- C2 (amended): with an empty list of previous frames, compare_frames
returns one ItemAdded per current item regardless of confidence (the
presence-threshold filter is not applied on the first frame), carrying the
items' names in order, and zero removals, movements and consumption
events. -/
theorem compare_frames_first_frame (items : List ObservedItem) :
    (compare_frames items []).items_added.length = items.length ∧
    (compare_frames items []).items_added.map (fun e => e.item_name) =
      items.map (fun it => it.name) ∧
    (compare_frames items []).items_removed = [] ∧
    (compare_frames items []).items_moved = [] ∧
    (compare_frames items []).consumption_events = [] := by
  refine ⟨?_, ?_, rfl, rfl, rfl⟩
  · simp [compare_frames]
  · simp [compare_frames, first_frame_added]

/-! ### C3: the keyed debounce gate -/

theorem lookupKey_setKey (cache : DebounceCache) (key : String) (v : ℚ) :
    lookupKey (setKey cache key v) key = some v := by
  simp [lookupKey, setKey]

/-- C3: should_accept accepts and records `now` exactly when the key is
unseen or the elapsed time since the last acceptance is at least the
interval, and rejects leaving the cache unchanged otherwise; in particular,
with a 900 s interval, a fresh key is accepted, a second call within 900 s
is rejected, and a further call at least 900 s after the accepted one is
accepted again. -/
theorem should_accept_spec :
    (∀ (cache : DebounceCache) (key : String) (interval now : ℚ),
      ((should_accept cache key interval now).1 = true ↔
        lookupKey cache key = none ∨
        ∃ last, lookupKey cache key = some last ∧ interval ≤ now - last) ∧
      ((should_accept cache key interval now).1 = true →
        lookupKey (should_accept cache key interval now).2 key = some now) ∧
      ((should_accept cache key interval now).1 = false →
        (should_accept cache key interval now).2 = cache)) ∧
    (∀ (cache : DebounceCache) (key : String) (t1 t2 t3 : ℚ),
      lookupKey cache key = none → t2 - t1 < 900 → 900 ≤ t3 - t1 →
      (should_accept cache key 900 t1).1 = true ∧
      (should_accept (should_accept cache key 900 t1).2 key 900 t2).1 =
        false ∧
      (should_accept (should_accept
          (should_accept cache key 900 t1).2 key 900 t2).2 key 900 t3).1 =
        true) := by
  constructor
  · intro cache key interval now
    rcases hcase : lookupKey cache key with _ | last
    · refine ⟨?_, ?_, ?_⟩
      · simp [should_accept, hcase]
      · intro _
        simp only [should_accept, hcase]
        exact lookupKey_setKey cache key now
      · intro hfalse
        simp [should_accept, hcase] at hfalse
    · by_cases helapsed : interval ≤ now - last
      · refine ⟨?_, ?_, ?_⟩
        · simp only [should_accept, hcase, if_pos helapsed, true_iff]
          exact Or.inr ⟨last, rfl, helapsed⟩
        · intro _
          simp only [should_accept, hcase, if_pos helapsed]
          exact lookupKey_setKey cache key now
        · intro hfalse
          simp [should_accept, hcase, if_pos helapsed] at hfalse
      · refine ⟨?_, ?_, ?_⟩
        · simp only [should_accept, hcase, if_neg helapsed]
          refine ⟨fun h => absurd h Bool.false_ne_true, ?_⟩
          rintro (h | ⟨last', hl, hle⟩)
          · exact Option.noConfusion h
          · cases Option.some.inj hl
            exact absurd hle helapsed
        · intro htrue
          simp [should_accept, hcase, if_neg helapsed] at htrue
        · intro _
          simp [should_accept, hcase, if_neg helapsed]
  · intro cache key t1 t2 t3 hfresh h12 h13
    have hs1 : should_accept cache key 900 t1 = (true, setKey cache key t1) := by
      simp [should_accept, hfresh]
    have hlook : lookupKey (setKey cache key t1) key = some t1 :=
      lookupKey_setKey cache key t1
    have hs2 : should_accept (setKey cache key t1) key 900 t2 =
        (false, setKey cache key t1) := by
      simp only [should_accept, hlook]
      rw [if_neg (by linarith)]
    have hs3 : should_accept (setKey cache key t1) key 900 t3 =
        (true, setKey (setKey cache key t1) key t3) := by
      simp only [should_accept, hlook]
      rw [if_pos (by linarith)]
    rw [hs1]
    refine ⟨rfl, ?_, ?_⟩
    · rw [hs2]
    · rw [hs2, hs3]

/-- Witness for C3: concrete calls at times 0, 100 and 950 with a 900 s
interval return true, false, true. -/
theorem should_accept_witness :
    (should_accept [] "iot_image:h1" 900 0).1 = true ∧
    (should_accept (should_accept [] "iot_image:h1" 900 0).2
      "iot_image:h1" 900 100).1 = false ∧
    (should_accept (should_accept (should_accept [] "iot_image:h1" 900 0).2
      "iot_image:h1" 900 100).2 "iot_image:h1" 900 950).1 = true :=
  should_accept_spec.2 [] "iot_image:h1" 0 100 950 rfl (by norm_num)
    (by norm_num)

/-! ### C8: consumption inference on removed items -/

/-- C8: a ConsumptionLikely event is emitted for a removed item exactly when
its appearance count over the prior frames is at least 2; its confidence is
min(0.95, 0.5 + 0.1·count), plus a 0.1 bonus when the history category is in
the consumable set, clamped to 1.0; and the concrete milk scenario (2 prior
dairy frames) yields confidence 0.8. -/
theorem detect_consumption_spec :
    (∀ (removed : ItemRemovedEvent) (history : List Observation),
      ((detect_consumption removed history).isSome = true ↔
        2 ≤ count_presence_in_history (strLower removed.item_name) history) ∧
      (∀ ev, detect_consumption removed history = some ev →
        ev.consumption_confidence =
          min 1 (min (95/100 : ℚ)
              (1/2 + count_presence_in_history (strLower removed.item_name)
                history * (1/10)) +
            (if strLower (categoryFromHistory (strLower removed.item_name)
                history) ∈ consumable_categories then 1/10 else 0)) ∧
        ev.category =
          categoryFromHistory (strLower removed.item_name) history ∧
        ev.item_name = removed.item_name)) ∧
    (∃ ev, detect_consumption milkRemoved [milkFrame1, milkFrame2] = some ev ∧
      ev.consumption_confidence = 8/10 ∧ ev.category = "dairy") := by
  have hgen : ∀ (removed : ItemRemovedEvent) (history : List Observation),
      ((detect_consumption removed history).isSome = true ↔
        2 ≤ count_presence_in_history (strLower removed.item_name) history) ∧
      (∀ ev, detect_consumption removed history = some ev →
        ev.consumption_confidence =
          min 1 (min (95/100 : ℚ)
              (1/2 + count_presence_in_history (strLower removed.item_name)
                history * (1/10)) +
            (if strLower (categoryFromHistory (strLower removed.item_name)
                history) ∈ consumable_categories then 1/10 else 0)) ∧
        ev.category =
          categoryFromHistory (strLower removed.item_name) history ∧
        ev.item_name = removed.item_name) := by
    intro removed history
    by_cases h2 :
      count_presence_in_history (strLower removed.item_name) history < 2
    · constructor
      · simp [detect_consumption, h2]
      · intro ev hev
        simp [detect_consumption, h2] at hev
    · constructor
      · simp only [detect_consumption, if_neg h2, Option.isSome_some,
          true_iff]
        omega
      · intro ev hev
        simp only [detect_consumption, if_neg h2, Option.some.injEq] at hev
        subst hev
        refine ⟨?_, rfl, rfl⟩
        by_cases hmem : strLower (categoryFromHistory
            (strLower removed.item_name) history) ∈ consumable_categories
        · simp [hmem]
        · simp [hmem]
  refine ⟨hgen, ?_⟩
  have hcount : count_presence_in_history (strLower milkRemoved.item_name)
      [milkFrame1, milkFrame2] = 2 := rfl
  have hcat : categoryFromHistory (strLower milkRemoved.item_name)
      [milkFrame1, milkFrame2] = "dairy" := rfl
  have hsome : (detect_consumption milkRemoved
      [milkFrame1, milkFrame2]).isSome = true :=
    ((hgen milkRemoved [milkFrame1, milkFrame2]).1).mpr (by rw [hcount])
  obtain ⟨ev, hev⟩ := Option.isSome_iff_exists.mp hsome
  refine ⟨ev, hev, ?_, ?_⟩
  · have h := ((hgen milkRemoved [milkFrame1, milkFrame2]).2 ev hev).1
    rw [hcount, hcat] at h
    have hmem : strLower "dairy" ∈ consumable_categories := by decide
    rw [if_pos hmem] at h
    rw [h]
    norm_num [min_def]
  · have h := ((hgen milkRemoved [milkFrame1, milkFrame2]).2 ev hev).2.1
    rw [hcat] at h
    exact h

/-- Witness for C8: the milk removal with two prior frames does emit a
consumption event. -/
theorem detect_consumption_spec_witness :
    (detect_consumption milkRemoved [milkFrame1, milkFrame2]).isSome =
      true :=
  ((detect_consumption_spec.1 milkRemoved [milkFrame1, milkFrame2]).1).mpr
    (by decide)

/-! ### C10: the expiry-notification throttle path of the router -/

/-- C10: an expiry-notification intent with a source item id that the
throttle rejects (the key was accepted less than 86400 s ago) returns the
non-error "throttled" result, creates no Notification record, publishes no
event, and leaves the throttle cache unchanged. -/
theorem create_notification_throttled
    (beh : ChannelBehavior) (cache : DebounceCache) (now : ℚ)
    (household_id sid severity : String) (last : ℚ)
    (hlast : lookupKey cache
      ("expiry_notification:" ++ household_id ++ ":" ++ sid) = some last)
    (hrecent : now - last < expiry_notification_throttle_seconds) :
    create_notification beh cache now household_id "perishable_expiry"
      severity (some sid) =
      { status := "throttled", record := none, published_events := [],
        cache := cache } := by
  have hgate : should_accept cache
      ("expiry_notification:" ++ household_id ++ ":" ++ sid)
      expiry_notification_throttle_seconds now = (false, cache) := by
    simp only [should_accept, hlast]
    rw [if_neg (by linarith)]
  simp [create_notification, hgate]

/-- Witness for C10: a concrete throttled expiry intent (key accepted at
time 0, retried at time 100, window 86400 s). -/
theorem create_notification_throttled_witness :
    create_notification behAllOk [(expiryKey0, 0)] 100 "h1"
      "perishable_expiry" "medium" (some "item1") =
      { status := "throttled", record := none, published_events := [],
        cache := [(expiryKey0, 0)] } :=
  create_notification_throttled behAllOk [(expiryKey0, 0)] 100 "h1" "item1"
    "medium" 0 rfl (by norm_num [expiry_notification_throttle_seconds])

/-! ### C5: monotonicity and floor of the decay model -/

/-- C5 counterexample: for a base confidence 0.05 below the floor 0.1,
effective confidence at 0 hours is the bare base (the code's early return
skips the floor), while at 1 hour it is floored at 0.1, so the value
increases with elapsed time and monotone non-increase fails. -/
theorem effective_confidence_not_monotone :
    ¬ (calculate_effective_confidence (5/100) (5/100) 1 ≤
        calculate_effective_confidence (5/100) (5/100) 0) := by
  have h0 : calculate_effective_confidence (5/100) (5/100) 0 = 5/100 := by
    simp [calculate_effective_confidence]
  have h1 : MINIMUM_CONFIDENCE ≤
      calculate_effective_confidence (5/100) (5/100) 1 := by
    simp only [calculate_effective_confidence]
    rw [if_neg (by norm_num)]
    exact le_max_left _ _
  intro hle
  rw [h0] at hle
  have hcontra : MINIMUM_CONFIDENCE ≤ (5/100 : ℝ) := le_trans h1 hle
  norm_num [MINIMUM_CONFIDENCE] at hcontra

/-- C5 (amended): for a fixed nonnegative decay rate and a base confidence
at least the floor 0.1, effective confidence is monotonically non-increasing
in hours_since_seen; and for every positive elapsed time, however large, it
is bounded below by the floor 0.1 (for base confidence below the floor the
non-increase fails at the 0-hours early return). -/
theorem effective_confidence_antitone_and_floored :
    (∀ (b r t1 t2 : ℝ), 0 ≤ r → MINIMUM_CONFIDENCE ≤ b → t1 ≤ t2 →
      calculate_effective_confidence b r t2 ≤
        calculate_effective_confidence b r t1) ∧
    (∀ (b r t : ℝ), 0 < t →
      MINIMUM_CONFIDENCE ≤ calculate_effective_confidence b r t) := by
  have hfloor : ∀ (b r t : ℝ), 0 < t →
      MINIMUM_CONFIDENCE ≤ calculate_effective_confidence b r t := by
    intro b r t ht
    simp only [calculate_effective_confidence]
    rw [if_neg (not_le.mpr ht)]
    exact le_max_left _ _
  refine ⟨?_, hfloor⟩
  intro b r t1 t2 hr hb h12
  have hb0 : 0 ≤ b := le_trans (by norm_num [MINIMUM_CONFIDENCE]) hb
  by_cases ht2 : t2 ≤ 0
  · simp only [calculate_effective_confidence]
    rw [if_pos ht2, if_pos (le_trans h12 ht2)]
  · push_neg at ht2
    have hexp2 : get_decay_factor t2 r ≤ 1 := by
      simp only [get_decay_factor]
      rw [if_neg (not_le.mpr ht2), Real.exp_le_one_iff]
      have hrt : 0 ≤ r * t2 := mul_nonneg hr (le_of_lt ht2)
      linarith
    by_cases ht1 : t1 ≤ 0
    · simp only [calculate_effective_confidence]
      rw [if_neg (not_le.mpr ht2), if_pos ht1]
      refine max_le hb ?_
      calc b * get_decay_factor t2 r ≤ b * 1 :=
            mul_le_mul_of_nonneg_left hexp2 hb0
        _ = b := mul_one b
    · push_neg at ht1
      simp only [calculate_effective_confidence]
      rw [if_neg (not_le.mpr ht2), if_neg (not_le.mpr ht1)]
      refine max_le_max (le_refl _) ?_
      simp only [get_decay_factor]
      rw [if_neg (not_le.mpr ht1), if_neg (not_le.mpr ht2)]
      refine mul_le_mul_of_nonneg_left ?_ hb0
      rw [Real.exp_le_exp]
      have hmul := mul_le_mul_of_nonneg_left h12 hr
      linarith

/-- Witness for C5: concrete non-increase from 1 h to 2 h at base 1, rate 1,
and the concrete floor bound at 1 h. -/
theorem effective_confidence_antitone_witness :
    calculate_effective_confidence 1 1 2 ≤
      calculate_effective_confidence 1 1 1 ∧
    MINIMUM_CONFIDENCE ≤ calculate_effective_confidence 1 1 1 :=
  ⟨effective_confidence_antitone_and_floored.1 1 1 1 2 zero_le_one
      (by norm_num [MINIMUM_CONFIDENCE]) one_le_two,
    effective_confidence_antitone_and_floored.2 1 1 1 one_pos⟩

/-! ### C7: the branch structure of estimate_time_to_stale -/

/-- C7 counterexample: with base confidence 0.3 at or below the threshold
0.5 the code returns the number 0.0, not null as the claim states. -/
theorem estimate_time_to_stale_already_below :
    estimate_time_to_stale (3/10) (5/100) (1/2) = some 0 ∧
    ((3/10 : ℝ) ≤ 1/2) := by
  constructor
  · simp only [estimate_time_to_stale]
    rw [if_pos (by norm_num)]
  · norm_num

/-- C7 (amended): estimate_time_to_stale returns 0 (not null) when the base
confidence is at or below the threshold; null when the base exceeds the
threshold but the rate is non-positive, and null when the ratio
threshold/base falls outside the open interval (0,1); otherwise it returns
t = −ln(threshold/base)/rate. -/
theorem estimate_time_to_stale_cases :
    (∀ (b r τ : ℝ), b ≤ τ → estimate_time_to_stale b r τ = some 0) ∧
    (∀ (b r τ : ℝ), τ < b → r ≤ 0 → estimate_time_to_stale b r τ = none) ∧
    (∀ (b r τ : ℝ), τ < b → 0 < r → (τ / b ≤ 0 ∨ 1 ≤ τ / b) →
      estimate_time_to_stale b r τ = none) ∧
    (∀ (b r τ : ℝ), τ < b → 0 < r → 0 < τ / b → τ / b < 1 →
      estimate_time_to_stale b r τ =
        some (-Real.log (τ / b) / r)) := by
  refine ⟨?_, ?_, ?_, ?_⟩
  · intro b r τ hle
    simp only [estimate_time_to_stale]
    rw [if_pos hle]
  · intro b r τ hlt hr
    simp only [estimate_time_to_stale]
    rw [if_neg (not_le.mpr hlt), if_pos hr]
  · intro b r τ hlt hr hout
    simp only [estimate_time_to_stale]
    rw [if_neg (not_le.mpr hlt), if_neg (not_le.mpr hr), if_pos hout]
  · intro b r τ hlt hr h0 h1
    simp only [estimate_time_to_stale]
    rw [if_neg (not_le.mpr hlt), if_neg (not_le.mpr hr),
      if_neg (by push_neg; exact ⟨h0, h1⟩)]
    congr 1
    have hlog : Real.log (τ / b) < 0 := Real.log_neg h0 h1
    exact max_eq_right (div_nonneg (by linarith) (le_of_lt hr))

/-- Witness for C7: a concrete instance of each branch: already-below base
returns 0, and a proper inversion at base 1, rate 1, threshold 1/2. -/
theorem estimate_time_to_stale_cases_witness :
    estimate_time_to_stale (1/4) 1 (1/2) = some 0 ∧
    estimate_time_to_stale 1 (-1) (1/2) = none :=
  ⟨estimate_time_to_stale_cases.1 (1/4) 1 (1/2) (by norm_num),
    estimate_time_to_stale_cases.2.1 1 (-1) (1/2) (by norm_num)
      (by norm_num)⟩

/-! ### C6: the decay round-trip -/

/-- C6 counterexample: for base confidence 0.4 at or below the threshold
0.5, estimate_time_to_stale returns the number 0, yet effective confidence
at 0 hours is the base 0.4, which is not within any reasonable tolerance of
the threshold 0.5 — the round-trip fails on the already-below branch. -/
theorem estimate_roundtrip_fails_when_already_below :
    estimate_time_to_stale (2/5) (5/100) (1/2) = some 0 ∧
    calculate_effective_confidence (2/5) (5/100) 0 = 2/5 ∧
    ((2/5 : ℝ) ≠ 1/2) := by
  refine ⟨?_, ?_, by norm_num⟩
  · simp only [estimate_time_to_stale]
    rw [if_pos (by norm_num)]
  · simp [calculate_effective_confidence]

/-- C6 (amended): when the base confidence strictly exceeds the threshold,
the rate is positive and the threshold is positive and at least the floor
0.1, the hours value returned by estimate_time_to_stale evaluates under
calculate_effective_confidence to exactly the threshold (exact real
arithmetic; the original claim fails only on the already-below branch,
where the code returns 0 hours instead of null). -/
theorem estimate_roundtrip (b r τ t : ℝ) (hbt : τ < b) (hr : 0 < r)
    (hτ : 0 < τ) (hfloor : MINIMUM_CONFIDENCE ≤ τ)
    (hest : estimate_time_to_stale b r τ = some t) :
    calculate_effective_confidence b r t = τ := by
  have hb : 0 < b := lt_trans hτ hbt
  have hratio0 : 0 < τ / b := div_pos hτ hb
  have hratio1 : τ / b < 1 := (div_lt_one hb).mpr hbt
  have hlog : Real.log (τ / b) < 0 := Real.log_neg hratio0 hratio1
  have hsome : estimate_time_to_stale b r τ =
      some (-Real.log (τ / b) / r) := by
    simp only [estimate_time_to_stale]
    rw [if_neg (not_le.mpr hbt), if_neg (not_le.mpr hr),
      if_neg (by push_neg; exact ⟨hratio0, hratio1⟩)]
    congr 1
    exact max_eq_right (div_nonneg (by linarith) (le_of_lt hr))
  rw [hsome] at hest
  have ht : t = -Real.log (τ / b) / r := (Option.some.inj hest).symm
  have ht0 : 0 < t := by
    rw [ht]
    exact div_pos (by linarith) hr
  simp only [calculate_effective_confidence, get_decay_factor]
  rw [if_neg (not_le.mpr ht0), if_neg (not_le.mpr ht0)]
  have hrne : r ≠ 0 := ne_of_gt hr
  have harg : -(r * t) = Real.log (τ / b) := by
    rw [ht]
    field_simp
  rw [harg, Real.exp_log hratio0]
  have hbr : b * (τ / b) = τ := by
    field_simp
  rw [hbr]
  exact max_eq_right hfloor

/-- Witness for C6: base 1, rate 1, threshold 1/2 gives t = ln 2 and the
effective confidence at ln 2 hours is exactly 1/2. -/
theorem estimate_roundtrip_witness :
    calculate_effective_confidence 1 1 (Real.log 2) = 1/2 := by
  have hest : estimate_time_to_stale 1 1 (1/2) = some (Real.log 2) := by
    simp only [estimate_time_to_stale]
    rw [if_neg (by norm_num), if_neg (by norm_num),
      if_neg (by push_neg; constructor <;> norm_num)]
    congr 1
    have h1 : (1/2 : ℝ) / 1 = 2⁻¹ := by norm_num
    rw [h1, Real.log_inv, neg_neg, div_one]
    exact max_eq_right (Real.log_nonneg one_le_two)
  exact estimate_roundtrip 1 1 (1/2) (Real.log 2) (by norm_num) one_pos
    (by norm_num) (by norm_num [MINIMUM_CONFIDENCE]) hest

/-! ### C4: event-bus dedup at the dispatch loop -/

theorem mkEv_event_id (s : String) : (mkEv s).event_id = s := rfl

theorem eid_injective : Function.Injective eid := by
  intro m n h
  have hlen : (eid m).length = (eid n).length := by rw [h]
  simpa [eid, String.length] using hlen

theorem eid_not_mem_map (k : ℕ) (l : List ℕ) (hk : k ∉ l) :
    eid k ∉ l.map eid := by
  intro hmem
  obtain ⟨m, hm, hEq⟩ := List.mem_map.mp hmem
  exact hk (eid_injective hEq ▸ hm)

theorem dispatch_event_mem (processed : List String) (e : BusEvent)
    (h : e.event_id ∈ processed) :
    dispatch_event processed e = (processed, false) := by
  simp [dispatch_event, h]

theorem dispatch_event_snd_fresh (processed : List String) (e : BusEvent)
    (h : e.event_id ∉ processed) :
    (dispatch_event processed e).2 = true := by
  simp only [dispatch_event]
  rw [if_neg h]

theorem dispatch_event_fresh_no_trim (processed : List String) (e : BusEvent)
    (h : e.event_id ∉ processed)
    (hlen : processed.length + 1 ≤ max_processed_cache) :
    dispatch_event processed e = (processed ++ [e.event_id], true) := by
  simp only [dispatch_event]
  rw [if_neg h, if_neg (by simp only [List.length_append,
    List.length_singleton]; omega)]

theorem dispatch_event_fresh_trim (processed : List String) (e : BusEvent)
    (h : e.event_id ∉ processed)
    (hlen : max_processed_cache < processed.length + 1) :
    dispatch_event processed e =
      ((processed ++ [e.event_id]).drop (processed.length + 1 - 5000),
        true) := by
  simp only [dispatch_event]
  rw [if_neg h, if_pos (by simp only [List.length_append,
    List.length_singleton]; omega)]
  simp [List.length_append]

theorem dispatch_rounds_cons (processed : List String) (e : BusEvent)
    (rest : List BusEvent) (id : String) :
    dispatch_rounds processed (e :: rest) id =
      (if (dispatch_event processed e).2 && (e.event_id == id) then 1
        else 0) +
        dispatch_rounds (dispatch_event processed e).1 rest id := rfl

theorem run_dispatch_cons (processed : List String) (e : BusEvent)
    (rest : List BusEvent) :
    run_dispatch processed (e :: rest) =
      run_dispatch (dispatch_event processed e).1 rest := rfl

theorem run_dispatch_nil (processed : List String) :
    run_dispatch processed [] = processed := rfl

theorem dispatch_rounds_single (processed : List String) (e : BusEvent)
    (id : String) :
    dispatch_rounds processed [e] id =
      if (dispatch_event processed e).2 && (e.event_id == id) then 1
      else 0 := by
  rw [dispatch_rounds_cons]
  rfl

theorem dispatch_rounds_append (processed : List String)
    (es1 es2 : List BusEvent) (id : String) :
    dispatch_rounds processed (es1 ++ es2) id =
      dispatch_rounds processed es1 id +
        dispatch_rounds (run_dispatch processed es1) es2 id := by
  induction es1 generalizing processed with
  | nil => simp [dispatch_rounds, run_dispatch]
  | cons e rest ih =>
    rw [List.cons_append, dispatch_rounds_cons, dispatch_rounds_cons,
      run_dispatch_cons, ih, Nat.add_assoc]

/-- While no cache trim can occur, an id that is already in the processed
cache receives no further handler rounds. -/
theorem dispatch_rounds_of_mem (es : List BusEvent) (processed : List String)
    (id : String) (hmem : id ∈ processed)
    (hlen : processed.length + es.length ≤ max_processed_cache) :
    dispatch_rounds processed es id = 0 := by
  induction es generalizing processed with
  | nil => rfl
  | cons e rest ih =>
    simp only [List.length_cons] at hlen
    by_cases he : e.event_id ∈ processed
    · simp only [dispatch_rounds, dispatch_event_mem processed e he,
        Bool.false_and, if_neg (Bool.false_ne_true), zero_add]
      exact ih processed hmem (by omega)
    · have hne : (e.event_id == id) = false :=
        beq_eq_false_iff_ne.mpr (fun hcontra => he (hcontra ▸ hmem))
      simp only [dispatch_rounds,
        dispatch_event_fresh_no_trim processed e he (by omega), hne,
        Bool.and_false, if_neg (Bool.false_ne_true), zero_add]
      exact ih (processed ++ [e.event_id])
        (List.mem_append_left _ hmem)
        (by simp only [List.length_append, List.length_singleton]; omega)

/-- C4 (amended): as long as the processed-id cache does not overflow its
capacity of 10000 during the run (so no trim happens), every event id
receives at most one round of handler invocations, and a fresh id that
occurs in the queue receives exactly one round — so publishing two events
with the same event_id within the cache window results in exactly one set
of handler invocations; once the cache is trimmed the guarantee can fail
(see the counterexample). -/
theorem bus_dedup_within_capacity :
    (∀ (processed : List String) (es : List BusEvent) (id : String),
      processed.length + es.length ≤ max_processed_cache →
      dispatch_rounds processed es id ≤ 1) ∧
    (∀ (processed : List String) (es : List BusEvent) (id : String),
      processed.length + es.length ≤ max_processed_cache →
      id ∉ processed → (∃ e ∈ es, e.event_id = id) →
      dispatch_rounds processed es id = 1) := by
  constructor
  · intro processed es id hlen
    induction es generalizing processed with
    | nil => simp [dispatch_rounds]
    | cons e rest ih =>
      simp only [List.length_cons] at hlen
      by_cases he : e.event_id ∈ processed
      · simp only [dispatch_rounds, dispatch_event_mem processed e he,
          Bool.false_and, if_neg (Bool.false_ne_true), zero_add]
        exact ih processed (by omega)
      · simp only [dispatch_rounds,
          dispatch_event_fresh_no_trim processed e he (by omega)]
        by_cases hid : e.event_id = id
        · have hbeq : (e.event_id == id) = true := beq_iff_eq.mpr hid
          have hrest : dispatch_rounds (processed ++ [e.event_id]) rest id
              = 0 :=
            dispatch_rounds_of_mem rest (processed ++ [e.event_id]) id
              (hid ▸ List.mem_append_right _ (List.mem_singleton_self _))
              (by simp only [List.length_append, List.length_singleton]
                  omega)
          simp [hbeq, hrest]
        · have hbeq : (e.event_id == id) = false :=
            beq_eq_false_iff_ne.mpr hid
          simp only [hbeq, Bool.and_false, if_neg (Bool.false_ne_true),
            zero_add]
          exact ih (processed ++ [e.event_id])
            (by simp only [List.length_append, List.length_singleton]
                omega)
  · intro processed es id hlen hid hex
    induction es generalizing processed with
    | nil => simp at hex
    | cons e rest ih =>
      simp only [List.length_cons] at hlen
      by_cases he : e.event_id ∈ processed
      · have hne : e.event_id ≠ id := fun hcontra => hid (hcontra ▸ he)
        simp only [dispatch_rounds, dispatch_event_mem processed e he,
          Bool.false_and, if_neg (Bool.false_ne_true), zero_add]
        obtain ⟨w, hw, hwid⟩ := hex
        rcases List.mem_cons.mp hw with hwe | hwr
        · exact absurd (hwe ▸ hwid) hne
        · exact ih processed (by omega) hid ⟨w, hwr, hwid⟩
      · simp only [dispatch_rounds,
          dispatch_event_fresh_no_trim processed e he (by omega)]
        by_cases heid : e.event_id = id
        · have hbeq : (e.event_id == id) = true := beq_iff_eq.mpr heid
          have hrest : dispatch_rounds (processed ++ [e.event_id]) rest id
              = 0 :=
            dispatch_rounds_of_mem rest (processed ++ [e.event_id]) id
              (heid ▸ List.mem_append_right _ (List.mem_singleton_self _))
              (by simp only [List.length_append, List.length_singleton]
                  omega)
          simp [hbeq, hrest]
        · have hbeq : (e.event_id == id) = false :=
            beq_eq_false_iff_ne.mpr heid
          simp only [hbeq, Bool.and_false, if_neg (Bool.false_ne_true),
            zero_add]
          obtain ⟨w, hw, hwid⟩ := hex
          rcases List.mem_cons.mp hw with hwe | hwr
          · exact absurd (hwe ▸ hwid) heid
          · refine ih (processed ++ [e.event_id])
              (by simp only [List.length_append, List.length_singleton]
                  omega) ?_ ⟨w, hwr, hwid⟩
            simp only [List.mem_append, List.mem_singleton]
            push_neg
            exact ⟨hid, fun hcontra => heid hcontra.symm⟩

/-- Witness for C4: two publishes of the same id "a" into an empty bus give
exactly one round of handler invocations. -/
theorem bus_dedup_within_capacity_witness :
    dispatch_rounds [] [mkEv "a", mkEv "a"] "a" = 1 :=
  bus_dedup_within_capacity.2 [] [mkEv "a", mkEv "a"] "a"
    (by simp [max_processed_cache]) (by simp)
    ⟨mkEv "a", by simp, rfl⟩

/-- Running a queue of events with pairwise-distinct fresh ids that fits
into the cache appends exactly those ids. -/
theorem run_dispatch_fresh (es : List BusEvent) (processed : List String)
    (hfresh : ∀ e ∈ es, e.event_id ∉ processed)
    (hnodup : (es.map BusEvent.event_id).Nodup)
    (hlen : processed.length + es.length ≤ max_processed_cache) :
    run_dispatch processed es = processed ++ es.map BusEvent.event_id := by
  induction es generalizing processed with
  | nil => simp [run_dispatch]
  | cons e rest ih =>
    simp only [List.length_cons] at hlen
    simp only [List.map_cons, List.nodup_cons] at hnodup
    simp only [run_dispatch, List.foldl_cons,
      dispatch_event_fresh_no_trim processed e
        (hfresh e (List.mem_cons_self e rest)) (by omega)]
    have hstep := ih (processed ++ [e.event_id])
      (fun f hf => by
        simp only [List.mem_append, List.mem_singleton]
        push_neg
        refine ⟨hfresh f (List.mem_cons_of_mem e hf), fun hcontra => ?_⟩
        exact hnodup.1 (hcontra ▸ List.mem_map_of_mem BusEvent.event_id hf))
      hnodup.2
      (by simp only [List.length_append, List.length_singleton]; omega)
    simp only [run_dispatch] at hstep
    rw [hstep, List.append_assoc, List.singleton_append, List.map_cons]

/-- Rounds received by an id over a fresh, duplicate-free, in-capacity
queue: its multiplicity among the queued ids. -/
theorem dispatch_rounds_fresh (es : List BusEvent) (processed : List String)
    (id : String) (hfresh : ∀ e ∈ es, e.event_id ∉ processed)
    (hnodup : (es.map BusEvent.event_id).Nodup)
    (hlen : processed.length + es.length ≤ max_processed_cache) :
    dispatch_rounds processed es id =
      (es.map BusEvent.event_id).count id := by
  induction es generalizing processed with
  | nil => simp [dispatch_rounds]
  | cons e rest ih =>
    simp only [List.length_cons] at hlen
    simp only [List.map_cons, List.nodup_cons] at hnodup
    simp only [dispatch_rounds,
      dispatch_event_fresh_no_trim processed e
        (hfresh e (List.mem_cons_self e rest)) (by omega), Bool.true_and]
    have hstep := ih (processed ++ [e.event_id])
      (fun f hf => by
        simp only [List.mem_append, List.mem_singleton]
        push_neg
        refine ⟨hfresh f (List.mem_cons_of_mem e hf), fun hcontra => ?_⟩
        exact hnodup.1 (hcontra ▸ List.mem_map_of_mem BusEvent.event_id hf))
      hnodup.2
      (by simp only [List.length_append, List.length_singleton]; omega)
    rw [hstep, List.map_cons, List.count_cons]
    by_cases hbeq : e.event_id = id
    · simp [hbeq]
      omega
    · simp [beq_eq_false_iff_ne.mpr hbeq,
        beq_eq_false_iff_ne.mpr (fun h => hbeq h.symm)]

/-- C4 counterexample: over the concrete queue of 10001 pairwise-distinct
event ids followed by a republish of the first id, the first id receives
two rounds of handler invocations — the cache trim evicted it, so "at most
one round per distinct event_id over any sequence" is false. -/
theorem bus_dedup_trim_counterexample :
    dispatch_rounds [] floodEvents (eid 0) = 2 := by
  have hmapids : ∀ (l : List ℕ),
      (l.map (fun n => mkEv (eid n))).map BusEvent.event_id = l.map eid :=
    fun l => by rw [List.map_map]; rfl
  have h10001 : (10001 : ℕ) = 10000 + 1 := rfl
  have h5001 : (5001 : ℕ) = 5000 + 1 := rfl
  have hsplit : floodEvents =
      (List.range 10000).map (fun n => mkEv (eid n)) ++
        ([mkEv (eid 10000)] ++ [mkEv (eid 0)]) := by
    show (List.range 10001).map (fun n => mkEv (eid n)) ++ [mkEv (eid 0)] = _
    rw [h10001, List.range_succ, List.map_append, List.append_assoc]
    rfl
  rw [hsplit, dispatch_rounds_append, dispatch_rounds_append]
  have hfresh1 : ∀ e ∈ (List.range 10000).map (fun n => mkEv (eid n)),
      e.event_id ∉ ([] : List String) := by simp
  have hnodup1 : (((List.range 10000).map
      (fun n => mkEv (eid n))).map BusEvent.event_id).Nodup := by
    rw [hmapids]
    exact (List.nodup_range 10000).map eid_injective
  have hlen1 : ([] : List String).length +
      ((List.range 10000).map (fun n => mkEv (eid n))).length ≤
        max_processed_cache := by
    simp [max_processed_cache]
  have hpart1 : dispatch_rounds []
      ((List.range 10000).map (fun n => mkEv (eid n))) (eid 0) = 1 := by
    rw [dispatch_rounds_fresh _ _ _ hfresh1 hnodup1 hlen1, hmapids,
      List.count_map_of_injective (List.range 10000) eid eid_injective 0]
    exact List.count_eq_one_of_mem (List.nodup_range 10000)
      (List.mem_range.mpr (by norm_num))
  have hstate1 : run_dispatch []
      ((List.range 10000).map (fun n => mkEv (eid n))) =
        (List.range 10000).map eid := by
    rw [run_dispatch_fresh _ _ hfresh1 hnodup1 hlen1, hmapids,
      List.nil_append]
  have hfresh2 : (mkEv (eid 10000)).event_id ∉ (List.range 10000).map eid :=
    eid_not_mem_map 10000 (List.range 10000)
      (by simp)
  have hplen : ((List.range 10000).map eid).length = 10000 := by simp
  have he2 : dispatch_event ((List.range 10000).map eid)
      (mkEv (eid 10000)) =
        (((List.range 10001).map eid).drop 5001, true) := by
    rw [dispatch_event_fresh_trim _ _ hfresh2
      (by rw [hplen]; simp [max_processed_cache])]
    rw [hplen, mkEv_event_id]
    have hconcat : (List.range 10000).map eid ++ [eid 10000]
        = (List.range 10001).map eid := by
      conv_rhs => rw [h10001, List.range_succ, List.map_append,
        List.map_cons, List.map_nil]
    rw [hconcat]
  have hne : (eid 10000 == eid 0) = false :=
    beq_eq_false_iff_ne.mpr (fun h => by
      have hinj := eid_injective h
      omega)
  have hpart2 : dispatch_rounds ((List.range 10000).map eid)
      [mkEv (eid 10000)] (eid 0) = 0 := by
    rw [dispatch_rounds_single, he2, mkEv_event_id, hne]
    simp
  have hstate2 : run_dispatch ((List.range 10000).map eid)
      [mkEv (eid 10000)] = ((List.range 10001).map eid).drop 5001 := by
    rw [run_dispatch_cons, he2, run_dispatch_nil]
  have hdecomp : (List.range 10001).map eid =
      eid 0 :: (List.range 10000).map (eid ∘ Nat.succ) := by
    rw [h10001, List.range_succ_eq_map, List.map_cons, List.map_map]
  have hnotmem3 : eid 0 ∉ ((List.range 10001).map eid).drop 5001 := by
    intro hmem
    rw [hdecomp, h5001, List.drop_succ_cons] at hmem
    have hmem2 : eid 0 ∈ (List.range 10000).map (eid ∘ Nat.succ) :=
      (List.drop_sublist 5000 _).subset hmem
    obtain ⟨m, _, hEq⟩ := List.mem_map.mp hmem2
    have : Nat.succ m = 0 := eid_injective hEq
    omega
  have hpart3 : dispatch_rounds (((List.range 10001).map eid).drop 5001)
      [mkEv (eid 0)] (eid 0) = 1 := by
    rw [dispatch_rounds_single, mkEv_event_id,
      dispatch_event_snd_fresh _ _ hnotmem3]
    simp
  rw [hpart1, hstate1, hpart2, hstate2, hpart3]

/-! ### C9: per-channel retry policy and forced in-app delivery -/

/-- C9 counterexample: a push-channel delivery that raises on its first
attempt is not retried on that channel — only one underlying delivery call
is made and the channel reports failure, even though the retry would have
succeeded — so "exactly one retry of that channel" is false for the push
channel. -/
theorem deliver_to_channel_no_push_retry :
    deliver_to_channel behPushFlaky "push" = (false, 1) ∧
    behPushFlaky "push" 1 = Except.ok true := ⟨rfl, rfl⟩

theorem finish_create_delivered (beh : ChannelBehavior)
    (cache : DebounceCache) (ntype severity : String) :
    ∃ rec, (finish_create beh cache ntype severity).record = some rec ∧
      rec.delivery_status = "delivered" ∧ rec.channels_delivered ≠ [] := by
  simp only [finish_create]
  split
  · refine ⟨_, rfl, rfl, ?_⟩
    simp
  · rename_i hne
    refine ⟨_, rfl, rfl, ?_⟩
    simpa [List.isEmpty_iff] using hne

/-- C9 (amended): after a delivery exception only the in-app channel is
retried, exactly once (the retry's outcome is returned; a second exception
is absorbed as failure); any other channel's exception is absorbed without
a retry of that channel and counts as failure; and every non-throttled
create_notification call ends with a record in "delivered" status whose
delivered-channel list is nonempty (an in-app delivery is forced when no
channel succeeded). -/
theorem delivery_retry_and_forced_in_app :
    (∀ (beh : ChannelBehavior) (b : Bool),
      beh "in_app" 0 = Except.error () → beh "in_app" 1 = Except.ok b →
      deliver_to_channel beh "in_app" = (b, 2)) ∧
    (∀ (beh : ChannelBehavior) (channel : String), channel ≠ "in_app" →
      beh channel 0 = Except.error () →
      deliver_to_channel beh channel = (false, 1)) ∧
    (∀ (beh : ChannelBehavior) (cache : DebounceCache) (now : ℚ)
      (household_id notification_type severity : String)
      (source_id : Option String),
      (create_notification beh cache now household_id notification_type
        severity source_id).status = "throttled" ∨
      ∃ rec, (create_notification beh cache now household_id
          notification_type severity source_id).record = some rec ∧
        rec.delivery_status = "delivered" ∧
        rec.channels_delivered ≠ []) := by
  refine ⟨?_, ?_, ?_⟩
  · intro beh b h0 h1
    simp [deliver_to_channel, h0, h1]
  · intro beh channel hc h0
    have hbeq : (channel == "in_app") = false := beq_eq_false_iff_ne.mpr hc
    simp [deliver_to_channel, h0, hbeq]
  · intro beh cache now household_id ntype severity sid
    by_cases hexp : ntype = "perishable_expiry"
    · subst hexp
      cases sid with
      | none =>
        have hcreate : create_notification beh cache now household_id
            "perishable_expiry" severity none =
              finish_create beh cache "perishable_expiry" severity := by
          simp [create_notification]
        rw [hcreate]
        exact Or.inr (finish_create_delivered beh cache
          "perishable_expiry" severity)
      | some s =>
        rcases hflag : (should_accept cache
            ("expiry_notification:" ++ household_id ++ ":" ++ s)
            expiry_notification_throttle_seconds now).1 with _ | _
        · left
          simp [create_notification, hflag]
        · right
          have hcreate : create_notification beh cache now household_id
              "perishable_expiry" severity (some s) =
                finish_create beh (should_accept cache
                  ("expiry_notification:" ++ household_id ++ ":" ++ s)
                  expiry_notification_throttle_seconds now).2
                  "perishable_expiry" severity := by
            simp [create_notification, hflag]
          rw [hcreate]
          exact finish_create_delivered beh _ "perishable_expiry" severity
    · have hcreate : create_notification beh cache now household_id
          ntype severity sid = finish_create beh cache ntype severity := by
        simp [create_notification, hexp]
      rw [hcreate]
      exact Or.inr (finish_create_delivered beh cache ntype severity)

/-- Witness for C9: the in-app channel raising once is retried and
succeeds in two calls; the push channel raising once makes a single call
and fails; and a concrete non-throttled create ends delivered. -/
theorem delivery_retry_witness :
    deliver_to_channel behFirstFails "in_app" = (true, 2) ∧
    deliver_to_channel behFirstFails "push" = (false, 1) ∧
    ((create_notification behAllOk [] 0 "h1" "inventory_low" "medium"
        none).status = "throttled" ∨
      ∃ rec, (create_notification behAllOk [] 0 "h1" "inventory_low"
          "medium" none).record = some rec ∧
        rec.delivery_status = "delivered" ∧
        rec.channels_delivered ≠ []) :=
  ⟨delivery_retry_and_forced_in_app.1 behFirstFails true rfl rfl,
    delivery_retry_and_forced_in_app.2.1 behFirstFails "push" (by decide)
      rfl,
    delivery_retry_and_forced_in_app.2.2 behAllOk [] 0 "h1"
      "inventory_low" "medium" none⟩

end Domus
